import Mathlib

/-!
Verification of the Scrapy `ExecutionEngine` (src/scrapy/core/engine.py).

The engine's own state and methods are embedded directly from the source.
Its collaborators (Scheduler, DomainScheduler, Downloader, Scraper, spider
registry, notification bus) live outside the engine module; the pieces of
their behaviour the engine relies on are modelled from the spec, each marked
with a doc comment starting `Modelled from the spec:`.

The reactor/event loop is modelled by an explicit event-step relation:
asynchronous callbacks (`callLater`, download completions, the main-loop tick)
become events, and `Reachable` is the set of engine states reachable from the
freshly constructed engine through in-contract event sequences.
-/

set_option linter.unusedVariables false

namespace ScrapyEngine

/-- Domains are identified by string keys (hostnames). -/
abbrev Domain := String

/-- A request is abstracted to an identifier; the engine-level claims do not
depend on urls or headers. -/
abbrev Request := Nat

/-- Modelled from the spec: the Downloader's per-domain site record (the
Downloader source is external to the engine module).  `active` counts the
active transfers for the domain, `concurrency` is the saturation threshold
used by the backout signal, and `closingFlag` records that the engine told
the Downloader to stop accepting new work for the domain. -/
structure DownloaderSite where
  active : Nat
  concurrency : Nat
  closingFlag : Bool
  deriving DecidableEq, Repr

/-- Modelled from the spec: the Downloader's per-domain backout/backpressure
signal ("a signal ... that a domain should pause new dispatch due to
saturation"). -/
def DownloaderSite.needs_backout (site : DownloaderSite) : Bool :=
  decide (site.concurrency ≤ site.active)

/-- Modelled from the spec: the Scraper's per-domain site record (the Scraper
source is external to the engine module).  `backout` is its backpressure
signal, `idleFlag` its per-domain idleness report. -/
structure ScraperSite where
  backout : Bool
  idleFlag : Bool
  deriving DecidableEq, Repr

/-- Modelled from the spec: the Scraper's per-domain backout signal. -/
def ScraperSite.needs_backout (site : ScraperSite) : Bool :=
  site.backout

/-- Lifecycle notifications emitted through the notification bus
(`send_catch_log`). -/
inductive Signal where
  | engine_started
  | engine_stopped
  | domain_open (d : Domain)
  | domain_opened (d : Domain)
  | domain_closed (d : Domain) (reason : String)
  deriving DecidableEq, Repr

/-- Association-list lookup keyed by domain (models a Python dict lookup;
`none` corresponds to a missing key / KeyError on indexing). -/
def alookup {α : Type} : List (Domain × α) → Domain → Option α
  | [], _ => none
  | p :: t, d => if p.1 = d then some p.2 else alookup t d

/-- Remove every binding of key `d` (models `dict.pop`). -/
def aremove {α : Type} (l : List (Domain × α)) (d : Domain) : List (Domain × α) :=
  l.filter fun p => decide (p.1 ≠ d)

/-- Update the value bound to key `d` in place (models mutating
`dict[d]`'s fields). -/
def aupdate {α : Type} (l : List (Domain × α)) (d : Domain) (f : α → α) :
    List (Domain × α) :=
  l.map fun p => if p.1 = d then (p.1, f p.2) else p

/-- The engine state: the `ExecutionEngine` attributes set in `__init__`
(`running`, `paused`, `killed`, `keep_alive`, `closing`,
`_next_request_pending`) together with the observable state of its
collaborators and the outstanding `callLater(0, next_request, domain,
now=True)` reactor callbacks (`scheduledNextRequest`). -/
structure EngineState where
  running : Bool
  paused : Bool
  killed : Bool
  keepAlive : Bool
  /-- dict (domain -> reason) of spiders being closed. -/
  closing : List (Domain × String)
  /-- the `_next_request_pending` debounce set. -/
  nextRequestPending : List Domain
  /-- outstanding `callLater(0, self.next_request, domain, now=True)`
  reactor callbacks, in scheduling order. -/
  scheduledNextRequest : List Domain
  /-- Modelled from the spec: the Downloader's site table. -/
  downloaderSites : List (Domain × DownloaderSite)
  /-- Modelled from the spec: the Scraper's site table. -/
  scraperSites : List (Domain × ScraperSite)
  /-- Modelled from the spec: the set of domains open in the Scheduler. -/
  schedulerOpen : List Domain
  /-- Modelled from the spec: the Scheduler's per-domain pending-request
  queues. -/
  schedulerQueues : List (Domain × List Request)
  /-- Modelled from the spec: the DomainScheduler's queue of domains waiting
  to be admitted. -/
  domainQueue : List Domain
  /-- Modelled from the spec: the Downloader's global domain-capacity bound
  used by `has_capacity()`. -/
  downloaderCapacity : Nat
  /-- Modelled from the spec: per-domain concurrency threshold given to a
  freshly opened Downloader site. -/
  defaultConcurrency : Nat
  /-- trace of notifications emitted so far. -/
  signals : List Signal
  deriving DecidableEq, Repr

/-- The state of a freshly constructed engine (`ExecutionEngine.__init__`). -/
def initialState : EngineState :=
  { running := false
    paused := false
    killed := false
    keepAlive := false
    closing := []
    nextRequestPending := []
    scheduledNextRequest := []
    downloaderSites := []
    scraperSites := []
    schedulerOpen := []
    schedulerQueues := []
    domainQueue := []
    downloaderCapacity := 8
    defaultConcurrency := 2
    signals := [] }

/-- `domain in self.closing`. -/
def isClosing (s : EngineState) (d : Domain) : Bool :=
  (alookup s.closing d).isSome

/-- Modelled from the spec: the Scheduler's pending queue for a domain (a
domain unknown to the Scheduler has no pending requests). -/
def schedQueue (s : EngineState) (d : Domain) : List Request :=
  (alookup s.schedulerQueues d).getD []

/-- Modelled from the spec: `scheduler.domain_has_pending_requests(domain)`. -/
def schedHasPending (s : EngineState) (d : Domain) : Bool :=
  !(schedQueue s d).isEmpty

/-- `domain_is_closed`: "Return True if the domain is fully closed (ie. not
even in the closing stage)" — `domain not in self.downloader.sites`. -/
def domain_is_closed (s : EngineState) (d : Domain) : Bool :=
  !(alookup s.downloaderSites d).isSome

/-- `domain_is_open`: "Return True if the domain is fully opened (ie. not in
closing stage)" — `domain in self.downloader.sites and domain not in
self.closing`. -/
def domain_is_open (s : EngineState) (d : Domain) : Bool :=
  (alookup s.downloaderSites d).isSome && !(isClosing s d)

/-- `domain_is_idle`: scraper site present and idle, no pending scheduler
requests, and no active downloader transfers
(`scraper_idle and not (pending or downloading)`). -/
def domain_is_idle (s : EngineState) (d : Domain) : Bool :=
  (match alookup s.scraperSites d with
    | some ss => ss.idleFlag
    | none => false)
  && !(schedHasPending s d
       || (match alookup s.downloaderSites d with
           | some ds => decide (0 < ds.active)
           | none => false))

/-- Modelled from the spec: `downloader.has_capacity()` — spare capacity for
admitting further domains. -/
def downloaderHasCapacity (s : EngineState) : Bool :=
  decide (s.downloaderSites.length < s.downloaderCapacity)

/-- `is_idle`: `scheduler.is_idle() and downloader.is_idle() and
scraper.is_idle()`; the collaborator idleness reports are modelled from the
spec (a scheduler with no pending requests anywhere, a downloader and a
scraper with no open sites). -/
def is_idle (s : EngineState) : Bool :=
  (s.schedulerQueues.all fun p => p.2.isEmpty)
  && s.downloaderSites.isEmpty && s.scraperSites.isEmpty

/-- `next_request(domain)` called with `now=False` (the debounced entry
point): a domain already in `_next_request_pending` is ignored; otherwise the
domain is added to the pending set and one
`callLater(0, next_request, domain, now=True)` callback is scheduled. -/
def next_request (s : EngineState) (d : Domain) : EngineState :=
  if d ∈ s.nextRequestPending then s
  else { s with nextRequestPending := d :: s.nextRequestPending,
                scheduledNextRequest := s.scheduledNextRequest ++ [d] }

/-- `_needs_backout(domain)` with Python short-circuit `or` semantics made
explicit: `not self.running or self.domain_is_closed(domain) or
self.downloader.sites[domain].needs_backout() or
self.scraper.sites[domain].needs_backout()`.  Indexing a missing site raises
a key-lookup error, modelled as `none`. -/
def needs_backoutE (s : EngineState) (d : Domain) : Option Bool :=
  if !s.running then some true
  else if domain_is_closed s d then some true
  else
    match alookup s.downloaderSites d with
    | none => none
    | some dsite =>
      if dsite.needs_backout then some true
      else
        match alookup s.scraperSites d with
        | none => none
        | some ssite => some ssite.needs_backout

/-- `_next_request(domain)`: pull the next pending request from the scheduler
(`scheduler.next_request`, modelled from the spec as popping the head of the
domain's queue) and, if there is one, dispatch it through
`mustbe_deferred(self.download, ...)` — the synchronous part of the download
is the Downloader accepting the transfer, modelled from the spec as
incrementing the site's active-transfer count.  Returns the dispatched
request, or `none` when the scheduler yielded no request. -/
def _next_request (s : EngineState) (d : Domain) :
    Option (EngineState × Request) :=
  match (alookup s.schedulerQueues d).getD [] with
  | [] => none
  | r :: rest =>
    let s1 := { s with schedulerQueues := (d, rest) :: aremove s.schedulerQueues d }
    let s2 := { s1 with downloaderSites :=
      (aupdate s1.downloaderSites d fun site => { site with active := site.active + 1 }) }
    some (s2, r)

/-- The drain loop inside `next_request`:
`while not self._needs_backout(domain): if not self._next_request(domain):
break`.  The fuel argument bounds the iteration count (the queue only
shrinks during the loop, so any fuel of at least the queue length makes the
loop terminate through its own exit conditions); `none` propagates a
key-lookup error from `_needs_backout`.  Returns the final state and the
list of dispatched requests in dispatch order. -/
def drainLoop (d : Domain) : Nat → EngineState → Option (EngineState × List Request)
  | 0, s => some (s, [])
  | fuel + 1, s =>
    match needs_backoutE s d with
    | none => none
    | some true => some (s, [])
    | some false =>
      match _next_request s d with
      | none => some (s, [])
      | some (s1, r) =>
        match drainLoop d fuel s1 with
        | none => none
        | some (s2, rs) => some (s2, r :: rs)

/-- One dispatch step: the state after `_next_request` when it dispatched,
the state unchanged when it did not. -/
def stepDispatch (d : Domain) (s : EngineState) : EngineState :=
  match _next_request s d with
  | some p => p.1
  | none => s

/-- The state after `k` dispatch steps of the drain loop. -/
def dispatchIter (d : Domain) (k : Nat) (s : EngineState) : EngineState :=
  (stepDispatch d)^[k] s

/-- `open_domain(domain)`: trigger the drain loop, register the domain with
the Downloader and the Scraper (modelled from the spec: each creates a fresh
site record), then emit the legacy `domain_open` and the `domain_opened`
notifications.  The Scheduler is not touched here. -/
def open_domain (s : EngineState) (d : Domain) : EngineState :=
  let s1 := next_request s d
  let s2 := { s1 with downloaderSites :=
    (d, { active := 0, concurrency := s1.defaultConcurrency, closingFlag := false })
      :: s1.downloaderSites }
  let s3 := { s2 with scraperSites :=
    (d, { backout := false, idleFlag := true }) :: s2.scraperSites }
  { s3 with signals := s3.signals ++ [Signal.domain_open d, Signal.domain_opened d] }

/-- `stop()`: flip `running` off (the per-domain `close_domain` calls are
registered as reactor shutdown triggers, not executed now). -/
def stopE (s : EngineState) : EngineState :=
  if !s.running then s else { s with running := false }

/-- `_stop_if_idle()`: `if self.is_idle() and not self.keep_alive:
self.stop()`. -/
def _stop_if_idle (s : EngineState) : EngineState :=
  if is_idle s && !s.keepAlive then stopE s else s

/-- The `while` loop of `_mainloop`, fuelled by the length of the
DomainScheduler queue: while running and the downloader has capacity, admit
the next domain (`next_domain`: pop the DomainScheduler and `open_domain`
it); when no domain is available, `_stop_if_idle` and return. -/
def _mainloopAux (d : Unit) : Nat → EngineState → EngineState
  | 0, s => s
  | fuel + 1, s =>
    if s.running && downloaderHasCapacity s then
      match h : s.domainQueue with
      | [] => _stop_if_idle s
      | dom :: rest => _mainloopAux () fuel (open_domain { s with domainQueue := rest } dom)
    else s

/-- `_mainloop()`: returns immediately unless running and not paused,
otherwise runs the admission loop. -/
def _mainloop (s : EngineState) : EngineState :=
  if !s.running || s.paused then s
  else _mainloopAux () (s.domainQueue.length + 1) s

/-- `start()`: emit `engine_started`, start the main-loop task (its immediate
first invocation runs while `self.running` is still `False`, so it returns
without effect), then set `running`. -/
def startE (s : EngineState) : EngineState :=
  if s.running then s
  else
    let s1 := { s with signals := s.signals ++ [Signal.engine_started] }
    let s2 := _mainloop s1
    { s2 with running := true }

/-- `kill()`: "stop() must have been called first" — a no-op while running,
otherwise sets the `killed` latch. -/
def killE (s : EngineState) : EngineState :=
  if s.running then s else { s with killed := true }

/-- `pause()`. -/
def pauseE (s : EngineState) : EngineState :=
  { s with paused := true }

/-- `unpause()`. -/
def unpauseE (s : EngineState) : EngineState :=
  { s with paused := false }

/-- `_finish_closing_domain(domain)`: close the domain's Scheduler and
Scraper registrations, pop the recorded closing reason (default
`"finished"`), emit `domain_closed`, and release the bookkeeping.  Modelled
from the spec: the Downloader's site-table entry for the domain is removed
when teardown completes (the Downloader source is external; spec invariants
1, 2 and 4 place the removal at teardown completion).  Afterwards, re-invoke
the main loop if still running, else emit `engine_stopped` once no domains
remain open. -/
def _finish_closing_domain (s : EngineState) (d : Domain) : EngineState :=
  let reason := (alookup s.closing d).getD "finished"
  let s1 := { s with
    schedulerOpen := s.schedulerOpen.filter fun x => decide (x ≠ d),
    schedulerQueues := aremove s.schedulerQueues d,
    scraperSites := aremove s.scraperSites d,
    closing := aremove s.closing d,
    downloaderSites := aremove s.downloaderSites d,
    signals := s.signals ++ [Signal.domain_closed d reason] }
  if s1.running then _mainloop s1
  else if s1.downloaderSites.isEmpty then
    { s1 with signals := s1.signals ++ [Signal.engine_stopped] }
  else s1

/-- The result of `_finish_closing_domain_if_idle`: either the domain was
finalized now, or a re-check was scheduled with `callLater(delay, ...)`. -/
inductive FinishOutcome where
  | finalized (s : EngineState)
  | rescheduled (s : EngineState) (delay : Nat)
  deriving DecidableEq, Repr

/-- `_finish_closing_domain_if_idle(domain)`: finalize now if the domain is
idle or the engine was killed; otherwise schedule a re-check after 5
time-units while running, 1 while stopped. -/
def _finish_closing_domain_if_idle (s : EngineState) (d : Domain) : FinishOutcome :=
  if domain_is_idle s d || s.killed then
    FinishOutcome.finalized (_finish_closing_domain s d)
  else
    FinishOutcome.rescheduled s (if s.running then 5 else 1)

/-- The completion handle returned by `close_domain`: the first call returns
the handle of the teardown it started; a call for a domain already in
`closing` returns `defer.succeed(None)`, an already-resolved handle. -/
inductive CloseResult where
  | teardownStarted
  | alreadyResolved
  deriving DecidableEq, Repr

/-- `close_domain(domain, reason)`: a no-op returning an already-resolved
handle when the domain is already in `closing`; otherwise record the reason,
instruct the Downloader to stop accepting new work for the domain (modelled
from the spec: mark its site closing), clear the Scheduler's pending
requests for the domain, and run `_finish_closing_domain_if_idle`. -/
def close_domain (s : EngineState) (d : Domain) (reason : String) :
    EngineState × CloseResult :=
  if (alookup s.closing d).isSome then (s, CloseResult.alreadyResolved)
  else
    let s1 := { s with closing := (d, reason) :: s.closing }
    let s2 := { s1 with downloaderSites :=
      (aupdate s1.downloaderSites d fun site => { site with closingFlag := true }) }
    let s3 := { s2 with schedulerQueues := (d, []) :: aremove s2.schedulerQueues d }
    match _finish_closing_domain_if_idle s3 d with
    | FinishOutcome.finalized s4 => (s4, CloseResult.teardownStarted)
    | FinishOutcome.rescheduled s4 _ => (s4, CloseResult.teardownStarted)

/-- Outcome of dispatching the `domain_idle` signal to its listeners. -/
inductive IdleOutcome where
  | proceed
  | vetoDontClose
  | listenerRaised
  deriving DecidableEq, Repr

/-- `_domain_idle(domain)`: dispatch the `domain_idle` signal; on a
`DontCloseDomain` veto, re-trigger the drain loop and return; any other
listener exception is caught and logged; absent a veto, close the domain
with reason `"finished"` if it is still idle. -/
def _domain_idle (s : EngineState) (d : Domain) (o : IdleOutcome) : EngineState :=
  match o with
  | IdleOutcome.vetoDontClose => next_request s d
  | IdleOutcome.listenerRaised =>
    if domain_is_idle s d then (close_domain s d "finished").1 else s
  | IdleOutcome.proceed =>
    if domain_is_idle s d then (close_domain s d "finished").1 else s

/-- The outcome of a `next_request(domain, now=True)` callback run: either
the paused path (a retry is scheduled with `callLater(5, next_request,
domain)`) or the drain loop ran, with the flag telling whether
`domain_is_idle` held afterwards (in which case `_domain_idle` is
evaluated). -/
inductive NRRun where
  | retryLater (s : EngineState)
  | ran (s : EngineState) (idleEvaluated : Bool)
  deriving DecidableEq, Repr

/-- The state carried by an `NRRun`. -/
def NRRun.state : NRRun → EngineState
  | NRRun.retryLater s => s
  | NRRun.ran s _ => s

/-- `next_request(domain, now=True)` (the scheduled callback): discard the
domain from `_next_request_pending`; if paused, schedule a retry; otherwise
run the drain loop and report whether the domain is idle afterwards.
`none` propagates a key-lookup error from the loop. -/
def next_request_now (s : EngineState) (d : Domain) : Option NRRun :=
  let s1 := { s with nextRequestPending := s.nextRequestPending.erase d }
  if s1.paused then some (NRRun.retryLater s1)
  else
    match drainLoop d ((schedQueue s1 d).length + 1) s1 with
    | none => none
    | some (s2, _) => some (NRRun.ran s2 (domain_is_idle s2 d))

/-- A full `next_request(domain, now=True)` callback including the
`_domain_idle` evaluation at its tail, with the listener outcome of the
`domain_idle` dispatch supplied as a parameter. -/
def nr_tick (s : EngineState) (d : Domain) (o : IdleOutcome) : EngineState :=
  match next_request_now s d with
  | none => s
  | some (NRRun.retryLater s1) => s1
  | some (NRRun.ran s1 idleEvaluated) =>
    if idleEvaluated then _domain_idle s1 d o else s1

/-- The error raised by `schedule` for a closing domain. -/
inductive ScheduleError where
  | ignoreRequest
  deriving DecidableEq, Repr

/-- Modelled from the spec: `scheduler.enqueue_request(domain, request)` —
append the request to the domain's pending queue. -/
def enqueue_request (s : EngineState) (d : Domain) (r : Request) : EngineState :=
  { s with schedulerQueues := (d, schedQueue s d ++ [r]) :: aremove s.schedulerQueues d }

/-- `schedule(request, spider)`: raise `IgnoreRequest` if the spider's domain
is already closing; else lazily open the domain in the Scheduler (notifying
the DomainScheduler when this auto-open is for a domain the Downloader has
never seen), trigger the drain loop, and enqueue the request. -/
def schedule (s : EngineState) (r : Request) (d : Domain) :
    EngineState × Except ScheduleError Unit :=
  if (alookup s.closing d).isSome then (s, Except.error ScheduleError.ignoreRequest)
  else
    let s1 :=
      if d ∈ s.schedulerOpen then s
      else
        let t := { s with schedulerOpen := d :: s.schedulerOpen }
        if domain_is_closed t d then { t with domainQueue := t.domainQueue ++ [d] }
        else t
    let s2 := next_request s1 d
    (enqueue_request s2 d r, Except.ok ())

/-- A download completion firing `_on_complete`: the transfer finishes
(modelled from the spec: the Downloader site's active count drops) and
`self.next_request(domain)` re-triggers the drain loop. -/
def downloadCompleteE (s : EngineState) (d : Domain) : EngineState :=
  let s1 := { s with downloaderSites :=
    (aupdate s.downloaderSites d fun site => { site with active := site.active - 1 }) }
  next_request s1 d

/-- The events driving the engine: its public control surface, the periodic
main-loop tick, and the reactor callbacks it schedules. -/
inductive Event where
  | start
  | stop
  | kill
  | pause
  | unpause
  | tick
  | openDom (d : Domain)
  | closeDom (d : Domain) (reason : String)
  | finishCb (d : Domain)
  | scheduleReq (d : Domain) (r : Request)
  | runNextRequest (d : Domain) (o : IdleOutcome)
  | downloadDone (d : Domain)
  deriving DecidableEq, Repr

/-- In-contract enabling conditions: `open_domain` is called for domains the
Downloader does not know yet, `close_domain` for open or closing domains, a
finish-closing re-check callback exists only for a closing domain, a
`next_request(now=True)` callback only when one was scheduled, and download
completions only for domains with a Downloader site. -/
def enabled : Event → EngineState → Bool
  | Event.openDom d, s => !(alookup s.downloaderSites d).isSome
  | Event.closeDom d _, s =>
    (alookup s.downloaderSites d).isSome || (alookup s.closing d).isSome
  | Event.finishCb d, s => (alookup s.closing d).isSome
  | Event.runNextRequest d _, s => decide (d ∈ s.scheduledNextRequest)
  | Event.downloadDone d, s => (alookup s.downloaderSites d).isSome
  | _, _ => true

/-- The state transition performed by each event. -/
def applyE : Event → EngineState → EngineState
  | Event.start, s => startE s
  | Event.stop, s => stopE s
  | Event.kill, s => killE s
  | Event.pause, s => pauseE s
  | Event.unpause, s => unpauseE s
  | Event.tick, s => _mainloop s
  | Event.openDom d, s => open_domain s d
  | Event.closeDom d r, s => (close_domain s d r).1
  | Event.finishCb d, s =>
    match _finish_closing_domain_if_idle s d with
    | FinishOutcome.finalized s1 => s1
    | FinishOutcome.rescheduled s1 _ => s1
  | Event.scheduleReq d r, s => (schedule s r d).1
  | Event.runNextRequest d o, s =>
    nr_tick { s with scheduledNextRequest := s.scheduledNextRequest.erase d } d o
  | Event.downloadDone d, s => downloadCompleteE s d

/-- Engine states reachable from the freshly constructed engine through
in-contract event sequences. -/
inductive Reachable : EngineState → Prop where
  | init : Reachable initialState
  | step {s : EngineState} (e : Event) : Reachable s → enabled e s = true →
      Reachable (applyE e s)

/-! ### Association-list lemmas -/

theorem alookup_cons {α : Type} (k : Domain) (v : α) (l : List (Domain × α)) (x : Domain) :
    alookup ((k, v) :: l) x = if k = x then some v else alookup l x := rfl

theorem alookup_aremove {α : Type} (l : List (Domain × α)) (d x : Domain) :
    alookup (aremove l d) x = if x = d then none else alookup l x := by
  induction l with
  | nil => simp [alookup, aremove]
  | cons p t ih =>
    by_cases hpd : p.1 = d
    · have hrm : aremove (p :: t) d = aremove t d := by
        simp [aremove, List.filter_cons, hpd]
      rw [hrm, ih]
      by_cases hxd : x = d
      · simp [hxd]
      · have hpx : ¬ p.1 = x := by rw [hpd]; exact fun h => hxd h.symm
        simp [hxd, alookup, hpx]
    · have hrm : aremove (p :: t) d = p :: aremove t d := by
        simp [aremove, List.filter_cons, hpd]
      rw [hrm]
      simp only [alookup, ih]
      by_cases hpx : p.1 = x
      · have hxd : ¬ x = d := fun h => hpd (hpx.trans h)
        simp [hpx, hxd]
      · simp [hpx]

theorem alookup_aupdate {α : Type} (l : List (Domain × α)) (d x : Domain) (f : α → α) :
    alookup (aupdate l d f) x =
      if x = d then Option.map f (alookup l x) else alookup l x := by
  induction l with
  | nil => simp [alookup, aupdate]
  | cons p t ih =>
    simp only [aupdate, List.map_cons] at *
    by_cases hpd : p.1 = d
    · by_cases hpx : p.1 = x
      · have hxd : x = d := hpx.symm.trans hpd
        simp [alookup, hpd, hpx, hxd]
      · have hdx : ¬ d = x := fun h => hpx (hpd.symm ▸ h)
        have hxd : ¬ x = d := fun h => hdx h.symm
        simp [alookup, hpd, hpx, hdx, hxd, ih]
    · by_cases hpx : p.1 = x
      · have hxd : ¬ x = d := fun h => hpd (hpx.trans h)
        simp [alookup, hpd, hpx, hxd]
      · simp [alookup, hpd, hpx, ih]

theorem isSome_alookup_aupdate {α : Type} (l : List (Domain × α)) (d x : Domain)
    (f : α → α) :
    (alookup (aupdate l d f) x).isSome = (alookup l x).isSome := by
  rw [alookup_aupdate]
  by_cases h : x = d <;> simp [h]

/-! ### Frame lemmas: which state components each operation leaves alone -/

theorem next_request_frame (s : EngineState) (d : Domain) :
    (next_request s d).running = s.running ∧
    (next_request s d).paused = s.paused ∧
    (next_request s d).killed = s.killed ∧
    (next_request s d).keepAlive = s.keepAlive ∧
    (next_request s d).closing = s.closing ∧
    (next_request s d).downloaderSites = s.downloaderSites ∧
    (next_request s d).scraperSites = s.scraperSites ∧
    (next_request s d).schedulerOpen = s.schedulerOpen ∧
    (next_request s d).schedulerQueues = s.schedulerQueues ∧
    (next_request s d).domainQueue = s.domainQueue ∧
    (next_request s d).signals = s.signals := by
  unfold next_request
  split <;> simp

theorem _next_request_none (s : EngineState) (d : Domain) :
    _next_request s d = none ↔ schedQueue s d = [] := by
  unfold _next_request schedQueue
  cases (alookup s.schedulerQueues d).getD [] <;> simp

theorem _next_request_some (s s1 : EngineState) (d : Domain) (r : Request)
    (h : _next_request s d = some (s1, r)) :
    schedQueue s d = r :: schedQueue s1 d ∧
    s1.running = s.running ∧ s1.paused = s.paused ∧ s1.killed = s.killed ∧
    s1.keepAlive = s.keepAlive ∧ s1.closing = s.closing ∧
    s1.scraperSites = s.scraperSites ∧
    s1.nextRequestPending = s.nextRequestPending ∧
    s1.scheduledNextRequest = s.scheduledNextRequest ∧
    s1.schedulerOpen = s.schedulerOpen ∧ s1.domainQueue = s.domainQueue ∧
    s1.signals = s.signals ∧
    (∀ x, (alookup s1.downloaderSites x).isSome = (alookup s.downloaderSites x).isSome) := by
  unfold _next_request at h
  cases hq : (alookup s.schedulerQueues d).getD [] with
  | nil => rw [hq] at h; exact absurd h (by simp)
  | cons r0 rest =>
    rw [hq] at h
    simp only [Option.some.injEq, Prod.mk.injEq] at h
    obtain ⟨hs, hr⟩ := h
    subst hs
    refine ⟨?_, ?_, ?_, ?_, ?_, ?_, ?_, ?_, ?_, ?_, ?_, ?_, ?_⟩ <;>
      simp [schedQueue, alookup_cons, hq, hr, isSome_alookup_aupdate]

theorem drainLoop_frame (d : Domain) (fuel : Nat) :
    ∀ s s1 rs, drainLoop d fuel s = some (s1, rs) →
    s1.running = s.running ∧ s1.paused = s.paused ∧ s1.killed = s.killed ∧
    s1.keepAlive = s.keepAlive ∧ s1.closing = s.closing ∧
    s1.scraperSites = s.scraperSites ∧
    s1.nextRequestPending = s.nextRequestPending ∧
    s1.scheduledNextRequest = s.scheduledNextRequest ∧
    s1.schedulerOpen = s.schedulerOpen ∧ s1.domainQueue = s.domainQueue ∧
    s1.signals = s.signals ∧
    (∀ x, (alookup s1.downloaderSites x).isSome = (alookup s.downloaderSites x).isSome) := by
  induction fuel with
  | zero =>
    intro s s1 rs h
    simp only [drainLoop, Option.some.injEq, Prod.mk.injEq] at h
    obtain ⟨hs, _⟩ := h
    subst hs
    exact ⟨rfl, rfl, rfl, rfl, rfl, rfl, rfl, rfl, rfl, rfl, rfl, fun x => rfl⟩
  | succ fuel ih =>
    intro s s1 rs h
    simp only [drainLoop] at h
    cases hb : needs_backoutE s d with
    | none => rw [hb] at h; exact absurd h (by simp)
    | some b =>
      rw [hb] at h
      cases b with
      | true =>
        simp only [Option.some.injEq, Prod.mk.injEq] at h
        obtain ⟨hs, _⟩ := h
        subst hs
        exact ⟨rfl, rfl, rfl, rfl, rfl, rfl, rfl, rfl, rfl, rfl, rfl, fun x => rfl⟩
      | false =>
        cases hn : _next_request s d with
        | none =>
          rw [hn] at h
          simp only [Option.some.injEq, Prod.mk.injEq] at h
          obtain ⟨hs, _⟩ := h
          subst hs
          exact ⟨rfl, rfl, rfl, rfl, rfl, rfl, rfl, rfl, rfl, rfl, rfl, fun x => rfl⟩
        | some p =>
          rw [hn] at h
          obtain ⟨s2, r⟩ := p
          simp only [] at h
          cases hd : drainLoop d fuel s2 with
          | none => rw [hd] at h; exact absurd h (by simp)
          | some q =>
            obtain ⟨s3, rs3⟩ := q
            rw [hd] at h
            simp only [Option.some.injEq, Prod.mk.injEq] at h
            obtain ⟨hs, _⟩ := h
            subst hs
            obtain ⟨hq, a1, a2, a3, a4, a5, a6, a7, a8, a9, a10, a11, a12⟩ :=
              _next_request_some s s2 d r hn
            obtain ⟨b1, b2, b3, b4, b5, b6, b7, b8, b9, b10, b11, b12⟩ :=
              ih s2 s3 rs3 hd
            exact ⟨b1.trans a1, b2.trans a2, b3.trans a3, b4.trans a4, b5.trans a5,
              b6.trans a6, b7.trans a7, b8.trans a8, b9.trans a9, b10.trans a10,
              b11.trans a11, fun x => (b12 x).trans (a12 x)⟩

/-! ### C2: schedule on a closing domain -/

/-- C2: for every request and every domain present in the engine's closing
map, `schedule(request, spider-for-that-domain)` fails with an IgnoreRequest
error and performs no scheduler enqueue — the whole engine state, and in
particular the scheduler's queue for that domain, is unchanged by the failed
call. -/
theorem schedule_closing_ignorerequest (s : EngineState) (r : Request) (d : Domain)
    (h : (alookup s.closing d).isSome = true) :
    (schedule s r d).2 = Except.error ScheduleError.ignoreRequest ∧
    (schedule s r d).1 = s ∧
    schedQueue (schedule s r d).1 d = schedQueue s d := by
  unfold schedule
  simp [h]

/-- A concrete engine state whose `closing` map contains domain `"a"`. -/
def closingStateC2 : EngineState :=
  { initialState with
      running := true
      closing := [("a", "cancelled")]
      schedulerOpen := ["a"]
      schedulerQueues := [("a", [5])] }

theorem schedule_closing_ignorerequest_witness :
    (schedule closingStateC2 7 "a").2 = Except.error ScheduleError.ignoreRequest ∧
    (schedule closingStateC2 7 "a").1 = closingStateC2 ∧
    schedQueue (schedule closingStateC2 7 "a").1 "a" = schedQueue closingStateC2 "a" :=
  schedule_closing_ignorerequest closingStateC2 7 "a" (by decide)

/-! ### C4: close_domain is re-entrant / idempotent -/

/-- C4: calling `close_domain(D, r)` while `D` is already in the closing map
is a no-op with the same externally observable effect as the first call
alone: the state is returned untouched (no downloader close, no clearing of
pending requests, no reason overwrite) together with an already-resolved
completion handle. -/
theorem close_domain_idempotent (s : EngineState) (d : Domain) (reason : String)
    (h : (alookup s.closing d).isSome = true) :
    close_domain s d reason = (s, CloseResult.alreadyResolved) := by
  unfold close_domain
  simp [h]

/-- A concrete engine state in which domain `"a"` is mid-teardown. -/
def closingStateC4 : EngineState :=
  { initialState with
      running := true
      closing := [("a", "shutdown")]
      downloaderSites := [("a", { active := 1, concurrency := 2, closingFlag := true })]
      scraperSites := [("a", { backout := false, idleFlag := false })] }

theorem close_domain_idempotent_witness :
    close_domain closingStateC4 "a" "finished"
      = (closingStateC4, CloseResult.alreadyResolved) :=
  close_domain_idempotent closingStateC4 "a" "finished" (by decide)

/-! ### C6: kill forces finalization; otherwise delayed re-check -/

/-- C6: once the `killed` latch is set, `_finish_closing_domain_if_idle`
finalizes the closing domain immediately — with no idleness requirement and
no further delayed re-check — while without the latch and without idleness
it reschedules itself after 5 time-units when running and 1 when stopped. -/
theorem kill_forces_finalize_else_backoff (s : EngineState) (d : Domain) :
    (s.killed = true →
      _finish_closing_domain_if_idle s d
        = FinishOutcome.finalized (_finish_closing_domain s d)) ∧
    (s.killed = false → domain_is_idle s d = false →
      _finish_closing_domain_if_idle s d
        = FinishOutcome.rescheduled s (if s.running then 5 else 1)) := by
  constructor
  · intro hk
    unfold _finish_closing_domain_if_idle
    simp [hk]
  · intro hk hi
    unfold _finish_closing_domain_if_idle
    simp [hk, hi]

/-- A killed, stopped engine with domain `"a"` closing and clearly not
idle (an active transfer and a busy scraper). -/
def killedStateC6 : EngineState :=
  { initialState with
      killed := true
      closing := [("a", "shutdown")]
      downloaderSites := [("a", { active := 1, concurrency := 2, closingFlag := true })]
      scraperSites := [("a", { backout := false, idleFlag := false })] }

/-- A running, unkilled engine with domain `"a"` closing and not idle. -/
def waitingStateC6 : EngineState :=
  { initialState with
      running := true
      closing := [("a", "cancelled")]
      downloaderSites := [("a", { active := 1, concurrency := 2, closingFlag := true })]
      scraperSites := [("a", { backout := false, idleFlag := false })] }

theorem kill_forces_finalize_else_backoff_witness :
    (_finish_closing_domain_if_idle killedStateC6 "a"
      = FinishOutcome.finalized (_finish_closing_domain killedStateC6 "a")) ∧
    (_finish_closing_domain_if_idle waitingStateC6 "a"
      = FinishOutcome.rescheduled waitingStateC6 5) := by
  constructor
  · exact (kill_forces_finalize_else_backoff killedStateC6 "a").1 rfl
  · have h := (kill_forces_finalize_else_backoff waitingStateC6 "a").2 rfl (by decide)
    simpa using h

/-! ### C10: _needs_backout short-circuits for a closed domain -/

/-- C10: for a domain absent from the Downloader's site table,
`_needs_backout` returns `true` by short-circuit evaluation without ever
indexing `downloader.sites[domain]` or `scraper.sites[domain]` (no
key-lookup error, i.e. not `none`), and the drain loop exits without
dispatching anything. -/
theorem needs_backout_closed_short_circuit (s : EngineState) (d : Domain)
    (h : alookup s.downloaderSites d = none) :
    needs_backoutE s d = some true ∧
    ∀ fuel, drainLoop d fuel s = some (s, []) := by
  have hb : needs_backoutE s d = some true := by
    unfold needs_backoutE domain_is_closed
    rw [h]
    cases s.running <;> simp
  refine ⟨hb, fun fuel => ?_⟩
  cases fuel with
  | zero => rfl
  | succ n => simp only [drainLoop, hb]

/-- A running engine that has never opened domain `"b"` in the Downloader,
while the scheduler still holds pending items for it. -/
def closedDomainStateC10 : EngineState :=
  { initialState with
      running := true
      schedulerOpen := ["b"]
      schedulerQueues := [("b", [1, 2, 3])] }

theorem needs_backout_closed_short_circuit_witness :
    needs_backoutE closedDomainStateC10 "b" = some true ∧
    ∀ fuel, drainLoop "b" fuel closedDomainStateC10 = some (closedDomainStateC10, []) :=
  needs_backout_closed_short_circuit closedDomainStateC10 "b" (by decide)

/-! ### Helper lemmas for the drain-loop entry points -/

theorem next_request_mem (s : EngineState) (d : Domain)
    (h : d ∈ s.nextRequestPending) : next_request s d = s := by
  unfold next_request
  simp [h]

theorem next_request_new (s : EngineState) (d : Domain)
    (h : d ∉ s.nextRequestPending) :
    next_request s d
      = { s with nextRequestPending := d :: s.nextRequestPending,
                 scheduledNextRequest := s.scheduledNextRequest ++ [d] } := by
  unfold next_request
  simp [h]

theorem next_request_now_pending (s : EngineState) (d : Domain) (nr : NRRun)
    (h : next_request_now s d = some nr) :
    (NRRun.state nr).nextRequestPending = s.nextRequestPending.erase d := by
  simp only [next_request_now] at h
  by_cases hp : s.paused
  · rw [if_pos (by simpa using hp)] at h
    cases h
    rfl
  · rw [if_neg (by simpa using hp)] at h
    cases hdr : drainLoop d
        ((schedQueue { s with nextRequestPending := s.nextRequestPending.erase d } d).length + 1)
        { s with nextRequestPending := s.nextRequestPending.erase d } with
    | none => rw [hdr] at h; cases h
    | some p =>
      obtain ⟨s2, rs⟩ := p
      rw [hdr] at h
      simp only [Option.some.injEq] at h
      subst h
      have hf := (drainLoop_frame d _ _ s2 rs hdr).2.2.2.2.2.2.1
      simpa [NRRun.state] using hf

theorem needs_backoutE_isSome (s : EngineState) (d : Domain)
    (h : (alookup s.scraperSites d).isSome = true) :
    needs_backoutE s d ≠ none := by
  unfold needs_backoutE
  cases hr : s.running with
  | false => simp
  | true =>
    cases hdl : alookup s.downloaderSites d with
    | none =>
      have hc : domain_is_closed s d = true := by
        unfold domain_is_closed; rw [hdl]; rfl
      simp [hc]
    | some site =>
      have hc : domain_is_closed s d = false := by
        unfold domain_is_closed; rw [hdl]; rfl
      cases hsl : alookup s.scraperSites d with
      | none => rw [hsl] at h; simp at h
      | some ss =>
        by_cases hb : site.needs_backout = true <;> simp [hc, hdl, hsl, hb]

theorem drainLoop_no_queue (s : EngineState) (d : Domain) (fuel : Nat)
    (hq : schedQueue s d = [])
    (hs : needs_backoutE s d ≠ none) :
    drainLoop d fuel s = some (s, []) := by
  cases fuel with
  | zero => rfl
  | succ n =>
    cases hb : needs_backoutE s d with
    | none => exact absurd hb hs
    | some b =>
      cases b with
      | true => simp only [drainLoop, hb]
      | false =>
        have hn : _next_request s d = none := (_next_request_none s d).mpr hq
        simp only [drainLoop, hb, hn]

theorem domain_is_idle_parts (s : EngineState) (d : Domain)
    (h : domain_is_idle s d = true) :
    (alookup s.scraperSites d).isSome = true ∧ schedQueue s d = [] := by
  unfold domain_is_idle schedHasPending at h
  cases hsl : alookup s.scraperSites d with
  | none => rw [hsl] at h; simp at h
  | some ss =>
    rw [hsl] at h
    rw [Bool.and_eq_true] at h
    have h2 := h.2
    rw [Bool.not_eq_true', Bool.or_eq_false_iff] at h2
    have h3 := h2.1
    rw [Bool.not_eq_false'] at h3
    exact ⟨by simp, by simpa [List.isEmpty_iff] using h3⟩

theorem domain_is_idle_congr (s t : EngineState) (d : Domain)
    (h1 : t.scraperSites = s.scraperSites)
    (h2 : t.schedulerQueues = s.schedulerQueues)
    (h3 : t.downloaderSites = s.downloaderSites) :
    domain_is_idle t d = domain_is_idle s d := by
  unfold domain_is_idle schedHasPending schedQueue
  rw [h1, h2, h3]

theorem needs_backoutE_congr (s t : EngineState) (d : Domain)
    (h1 : t.running = s.running)
    (h2 : t.downloaderSites = s.downloaderSites)
    (h3 : t.scraperSites = s.scraperSites) :
    needs_backoutE t d = needs_backoutE s d := by
  unfold needs_backoutE domain_is_closed
  rw [h1, h2, h3]

theorem next_request_now_empty (s : EngineState) (d : Domain)
    (hpause : s.paused = false)
    (hq : schedQueue s d = [])
    (hscr : (alookup s.scraperSites d).isSome = true) :
    next_request_now s d
      = some (NRRun.ran { s with nextRequestPending := s.nextRequestPending.erase d }
          (domain_is_idle s d)) := by
  have hbeq : needs_backoutE { s with nextRequestPending := s.nextRequestPending.erase d } d
      = needs_backoutE s d := needs_backoutE_congr s _ d rfl rfl rfl
  have hnb : needs_backoutE { s with nextRequestPending := s.nextRequestPending.erase d } d
      ≠ none := by
    rw [hbeq]; exact needs_backoutE_isSome s d hscr
  have hieq : domain_is_idle { s with nextRequestPending := s.nextRequestPending.erase d } d
      = domain_is_idle s d := domain_is_idle_congr s _ d rfl rfl rfl
  have hq1 : schedQueue { s with nextRequestPending := s.nextRequestPending.erase d } d
      = schedQueue s d := rfl
  have hdl := drainLoop_no_queue
    { s with nextRequestPending := s.nextRequestPending.erase d } d
    ((schedQueue { s with nextRequestPending := s.nextRequestPending.erase d } d).length + 1)
    (by rw [hq1, hq]) hnb
  simp only [next_request_now]
  rw [if_neg (by simpa using hpause)]
  rw [hdl]
  simp only [hieq]

/-! ### C5: debounce/coalescing of next_request triggers -/

/-- C5: N rapid `next_request` calls for a domain within one tick coalesce:
the first call sets the `_next_request_pending` debounce flag and schedules
exactly one `callLater(0, ..., now=True)` callback, every further call
returns without scheduling anything, and the flag is cleared when the
scheduled execution runs — so at most one domain-scoped trigger callback is
outstanding at a time. -/
theorem next_request_coalesce (s : EngineState) (d : Domain) (n : Nat)
    (hn : 1 ≤ n) (hd : d ∉ s.nextRequestPending) :
    ((fun u => next_request u d)^[n] s).scheduledNextRequest
        = s.scheduledNextRequest ++ [d] ∧
    d ∈ ((fun u => next_request u d)^[n] s).nextRequestPending ∧
    (List.count d s.scheduledNextRequest = 0 →
      List.count d ((fun u => next_request u d)^[n] s).scheduledNextRequest = 1) ∧
    (∀ nr, next_request_now ((fun u => next_request u d)^[n] s) d = some nr →
      d ∉ (NRRun.state nr).nextRequestPending) := by
  have hfix : ∀ (t : EngineState), d ∈ t.nextRequestPending →
      ∀ m, (fun u => next_request u d)^[m] t = t := by
    intro t ht m
    induction m with
    | zero => rfl
    | succ m ih => rw [Function.iterate_succ_apply, next_request_mem t d ht, ih]
  obtain ⟨m, rfl⟩ : ∃ m, n = m + 1 := ⟨n - 1, by omega⟩
  have hstep : (fun u => next_request u d)^[m + 1] s
      = { s with nextRequestPending := d :: s.nextRequestPending,
                 scheduledNextRequest := s.scheduledNextRequest ++ [d] } := by
    rw [Function.iterate_succ_apply, show next_request s d = _ from next_request_new s d hd]
    exact hfix _ (by simp) m
  rw [hstep]
  refine ⟨rfl, by simp, ?_, ?_⟩
  · intro h0
    simp [List.count_append, h0]
  · intro nr hnr
    have := next_request_now_pending _ d nr hnr
    rw [this]
    simp only []
    rw [List.erase_cons_head]
    exact hd

/-- A clean running engine with an open, busy domain `"a"` on which three
rapid `next_request` calls coalesce into a single scheduled callback. -/
def busyStateC5 : EngineState :=
  { initialState with
      running := true
      downloaderSites := [("a", { active := 1, concurrency := 2, closingFlag := false })]
      scraperSites := [("a", { backout := false, idleFlag := false })]
      schedulerOpen := ["a"]
      schedulerQueues := [("a", [4, 5])] }

theorem next_request_coalesce_witness :
    ((fun u => next_request u "a")^[3] busyStateC5).scheduledNextRequest
        = busyStateC5.scheduledNextRequest ++ ["a"] ∧
    "a" ∈ ((fun u => next_request u "a")^[3] busyStateC5).nextRequestPending ∧
    (List.count "a" busyStateC5.scheduledNextRequest = 0 →
      List.count "a" ((fun u => next_request u "a")^[3] busyStateC5).scheduledNextRequest = 1) ∧
    (∀ nr, next_request_now ((fun u => next_request u "a")^[3] busyStateC5) "a" = some nr →
      "a" ∉ (NRRun.state nr).nextRequestPending) :=
  next_request_coalesce busyStateC5 "a" 3 (by decide) (by decide)

/-! ### C3: DontCloseDomain veto defers the close and re-evaluates idleness -/

/-- C3: when the idle notification fires for an idle domain and a listener
vetoes with DontCloseDomain, `close_domain` is not called on that evaluation
(the closing map is unchanged), the drain loop is re-triggered (one
`next_request` callback is scheduled), and running that scheduled callback
evaluates domain idleness again — with the idle check coming out true, so
`_domain_idle` fires at least once more. -/
theorem domain_idle_veto_reevaluates (s : EngineState) (d : Domain)
    (hidle : domain_is_idle s d = true)
    (hp : d ∉ s.nextRequestPending)
    (hpause : s.paused = false) :
    (_domain_idle s d IdleOutcome.vetoDontClose).closing = s.closing ∧
    (_domain_idle s d IdleOutcome.vetoDontClose).scheduledNextRequest
       = s.scheduledNextRequest ++ [d] ∧
    ∃ s2, next_request_now (_domain_idle s d IdleOutcome.vetoDontClose) d
       = some (NRRun.ran s2 true) := by
  obtain ⟨hscr, hq⟩ := domain_is_idle_parts s d hidle
  have hv : _domain_idle s d IdleOutcome.vetoDontClose = next_request s d := rfl
  rw [hv, next_request_new s d hp]
  refine ⟨rfl, rfl, ?_⟩
  set t : EngineState :=
    { s with nextRequestPending := d :: s.nextRequestPending,
             scheduledNextRequest := s.scheduledNextRequest ++ [d] } with ht
  have h1 : next_request_now t d
      = some (NRRun.ran { t with nextRequestPending := t.nextRequestPending.erase d }
          (domain_is_idle t d)) :=
    next_request_now_empty t d hpause hq hscr
  have h2 : domain_is_idle t d = true := by
    rw [domain_is_idle_congr s t d rfl rfl rfl]
    exact hidle
  exact ⟨_, by rw [h1, h2]⟩

/-- A running engine in which domain `"a"` is open and idle: scraper idle,
no pending requests, no active transfers. -/
def idleStateC3 : EngineState :=
  { initialState with
      running := true
      downloaderSites := [("a", { active := 0, concurrency := 2, closingFlag := false })]
      scraperSites := [("a", { backout := false, idleFlag := true })]
      schedulerOpen := ["a"]
      schedulerQueues := [("a", [])] }

theorem domain_idle_veto_reevaluates_witness :
    (_domain_idle idleStateC3 "a" IdleOutcome.vetoDontClose).closing = idleStateC3.closing ∧
    (_domain_idle idleStateC3 "a" IdleOutcome.vetoDontClose).scheduledNextRequest
       = idleStateC3.scheduledNextRequest ++ ["a"] ∧
    ∃ s2, next_request_now (_domain_idle idleStateC3 "a" IdleOutcome.vetoDontClose) "a"
       = some (NRRun.ran s2 true) :=
  domain_idle_veto_reevaluates idleStateC3 "a" (by decide) (by decide) rfl

/-! ### C1: the drain loop dispatches a backout-free prefix of the queue -/

/-- C1: whenever the drain loop of `next_request` completes on a domain, the
dispatched requests are exactly an in-order prefix of the scheduler's queue,
pulled one at a time, each pulled only while `_needs_backout` was false; the
loop stops exactly when backout is signaled or the scheduler yields no
request, leaving any remaining queued items untouched. -/
theorem drain_dispatch_prefix_backout (d : Domain) (fuel : Nat) :
    ∀ s s1 rs, (schedQueue s d).length ≤ fuel →
      drainLoop d fuel s = some (s1, rs) →
      rs = (schedQueue s d).take rs.length ∧
      schedQueue s1 d = (schedQueue s d).drop rs.length ∧
      (needs_backoutE s1 d = some true ∨ schedQueue s1 d = []) ∧
      (∀ k, k < rs.length → needs_backoutE (dispatchIter d k s) d = some false) := by
  induction fuel with
  | zero =>
    intro s s1 rs hlen h
    simp only [drainLoop, Option.some.injEq, Prod.mk.injEq] at h
    obtain ⟨hs, hrs⟩ := h
    subst hs
    subst hrs
    have hq : schedQueue s d = [] := List.length_eq_zero.mp (Nat.le_zero.mp hlen)
    simp [hq]
  | succ fuel ih =>
    intro s s1 rs hlen h
    simp only [drainLoop] at h
    cases hb : needs_backoutE s d with
    | none => rw [hb] at h; exact absurd h (by simp)
    | some b =>
      rw [hb] at h
      cases b with
      | true =>
        simp only [Option.some.injEq, Prod.mk.injEq] at h
        obtain ⟨hs, hrs⟩ := h
        subst hs
        subst hrs
        simp [hb]
      | false =>
        cases hn : _next_request s d with
        | none =>
          rw [hn] at h
          simp only [Option.some.injEq, Prod.mk.injEq] at h
          obtain ⟨hs, hrs⟩ := h
          subst hs
          subst hrs
          have hq := (_next_request_none s d).mp hn
          simp [hq]
        | some p =>
          rw [hn] at h
          obtain ⟨s2, r⟩ := p
          simp only [] at h
          cases hdr : drainLoop d fuel s2 with
          | none => rw [hdr] at h; exact absurd h (by simp)
          | some q =>
            obtain ⟨s3, rs3⟩ := q
            rw [hdr] at h
            simp only [Option.some.injEq, Prod.mk.injEq] at h
            obtain ⟨hs, hrs⟩ := h
            subst hs
            subst hrs
            have hq := (_next_request_some s s2 d r hn).1
            have hlen2 : (schedQueue s2 d).length ≤ fuel := by
              have hll : (schedQueue s d).length = (schedQueue s2 d).length + 1 := by
                rw [hq]; rfl
              omega
            obtain ⟨ih1, ih2, ih3, ih4⟩ := ih s2 s3 rs3 hlen2 hdr
            refine ⟨?_, ?_, ih3, ?_⟩
            · rw [hq]
              simp only [List.length_cons, List.take_succ_cons]
              exact congrArg (List.cons r) ih1
            · rw [hq]
              simp only [List.length_cons, List.drop_succ_cons]
              exact ih2
            · intro k hk
              cases k with
              | zero =>
                simpa [dispatchIter] using hb
              | succ k2 =>
                have hstep : stepDispatch d s = s2 := by
                  unfold stepDispatch; rw [hn]
                have hiter : dispatchIter d (k2 + 1) s = dispatchIter d k2 s2 := by
                  unfold dispatchIter
                  rw [Function.iterate_succ_apply, hstep]
                rw [hiter]
                refine ih4 k2 ?_
                simp only [List.length_cons] at hk
                omega

/-- A running engine with open domain `"a"`, two queued requests, and a
Downloader site that saturates after one transfer. -/
def drainStateC1 : EngineState :=
  { initialState with
      running := true
      downloaderSites := [("a", { active := 0, concurrency := 1, closingFlag := false })]
      scraperSites := [("a", { backout := false, idleFlag := false })]
      schedulerOpen := ["a"]
      schedulerQueues := [("a", [4, 5])] }

/-- `drainStateC1` after the drain loop dispatched the first request and the
Downloader signaled backout: one active transfer, one request still
queued. -/
def drainStateC1After : EngineState :=
  { drainStateC1 with
      downloaderSites := [("a", { active := 1, concurrency := 1, closingFlag := false })]
      schedulerQueues := [("a", [5])] }

theorem drain_dispatch_prefix_backout_witness :
    [4] = (schedQueue drainStateC1 "a").take 1 ∧
    schedQueue drainStateC1After "a" = (schedQueue drainStateC1 "a").drop 1 ∧
    (needs_backoutE drainStateC1After "a" = some true ∨
      schedQueue drainStateC1After "a" = []) ∧
    (∀ k, k < ([4] : List Request).length →
      needs_backoutE (dispatchIter "a" k drainStateC1) "a" = some false) := by
  have h := drain_dispatch_prefix_backout "a" 3 drainStateC1 drainStateC1After [4]
    (by decide) (by decide)
  exact ⟨by simpa using h.1, h.2.1, h.2.2.1, h.2.2.2⟩

/-! ### C9: what open_domain actually does -/

/-- C9 counterexample: `open_domain` on a fresh domain registers it with the
Downloader, but performs no Scheduler registration — the claim that the open
transition registers the domain with the Scheduler is false on the code. -/
theorem open_domain_no_scheduler_cex :
    (alookup (open_domain initialState "a").downloaderSites "a").isSome = true ∧
    (open_domain initialState "a").schedulerOpen = [] ∧
    ¬ "a" ∈ (open_domain initialState "a").schedulerOpen := by
  decide

/-- C9 amended: `open_domain` registers the domain with the Downloader and
the Scraper, emits the "domain opened" notification (preceded by the legacy
`domain_open` one), and kicks off the per-domain drain loop (the domain ends
up in the debounce set, with one trigger callback scheduled when none was
pending); the Scheduler's registration is not touched — it happens lazily in
`schedule()`. -/
theorem open_domain_effects_amended (s : EngineState) (d : Domain) :
    alookup (open_domain s d).downloaderSites d
      = some { active := 0, concurrency := s.defaultConcurrency, closingFlag := false } ∧
    alookup (open_domain s d).scraperSites d
      = some { backout := false, idleFlag := true } ∧
    (open_domain s d).signals
      = s.signals ++ [Signal.domain_open d, Signal.domain_opened d] ∧
    d ∈ (open_domain s d).nextRequestPending ∧
    (d ∉ s.nextRequestPending →
      (open_domain s d).scheduledNextRequest = s.scheduledNextRequest ++ [d]) ∧
    (open_domain s d).schedulerOpen = s.schedulerOpen := by
  by_cases hd : d ∈ s.nextRequestPending
  · simp only [open_domain]
    rw [next_request_mem s d hd]
    refine ⟨?_, ?_, ?_, ?_, ?_, ?_⟩ <;> simp [alookup, hd]
  · simp only [open_domain]
    rw [next_request_new s d hd]
    refine ⟨?_, ?_, ?_, ?_, ?_, ?_⟩ <;> simp [alookup, hd]

theorem open_domain_effects_amended_witness :
    alookup (open_domain initialState "a").downloaderSites "a"
      = some { active := 0, concurrency := initialState.defaultConcurrency,
               closingFlag := false } ∧
    alookup (open_domain initialState "a").scraperSites "a"
      = some { backout := false, idleFlag := true } ∧
    (open_domain initialState "a").signals
      = initialState.signals ++ [Signal.domain_open "a", Signal.domain_opened "a"] ∧
    "a" ∈ (open_domain initialState "a").nextRequestPending ∧
    ("a" ∉ initialState.nextRequestPending →
      (open_domain initialState "a").scheduledNextRequest
        = initialState.scheduledNextRequest ++ ["a"]) ∧
    (open_domain initialState "a").schedulerOpen = initialState.schedulerOpen :=
  open_domain_effects_amended initialState "a"

/-! ### Reachability invariants: preservation infrastructure -/

/-- Every closing domain still has a Downloader site (spec invariants 1, 2
and 4: the site-table entry is removed only when teardown completes). -/
def ClosingSubOpen (s : EngineState) : Prop :=
  ∀ d, (alookup s.closing d).isSome = true → (alookup s.downloaderSites d).isSome = true

/-- The Scraper and the Downloader have sites for exactly the same domains
(the engine opens and closes them together). -/
def SitesAligned (s : EngineState) : Prop :=
  ∀ d, (alookup s.scraperSites d).isSome = (alookup s.downloaderSites d).isSome

/-- The state invariant maintained by every engine transition. -/
def Inv (s : EngineState) : Prop := ClosingSubOpen s ∧ SitesAligned s

/-- Preservation: the target state keeps the invariant, the `killed` flag,
and can only have `running` true if the source did. -/
def Pres (s t : EngineState) : Prop :=
  (Inv s → Inv t) ∧ t.killed = s.killed ∧ (t.running = true → s.running = true)

theorem Pres.refl (s : EngineState) : Pres s s :=
  ⟨id, rfl, id⟩

theorem Pres.trans {s t u : EngineState} (h1 : Pres s t) (h2 : Pres t u) : Pres s u :=
  ⟨fun h => h2.1 (h1.1 h), h2.2.1.trans h1.2.1, fun h => h1.2.2 (h2.2.2 h)⟩

theorem pres_of_fields (s t : EngineState)
    (hc : t.closing = s.closing)
    (hs2 : t.scraperSites = s.scraperSites)
    (hd : ∀ x, (alookup t.downloaderSites x).isSome = (alookup s.downloaderSites x).isSome)
    (hk : t.killed = s.killed)
    (hr : t.running = s.running) :
    Pres s t := by
  refine ⟨fun h => ⟨?_, ?_⟩, hk, fun h => by rw [← hr]; exact h⟩
  · intro x hx
    rw [hd x]
    exact h.1 x (by rw [← hc]; exact hx)
  · intro x
    rw [hs2, hd x]
    exact h.2 x

theorem pres_next_request (s : EngineState) (d : Domain) :
    Pres s (next_request s d) := by
  obtain ⟨h1, h2, h3, h4, h5, h6, h7, h8, h9, h10, h11⟩ := next_request_frame s d
  exact pres_of_fields s _ h5 h7 (fun x => by rw [h6]) h3 h1

theorem pres_stopE (s : EngineState) : Pres s (stopE s) := by
  unfold stopE
  split
  · exact Pres.refl s
  · exact ⟨fun h => h, rfl, fun h => absurd h (by simp)⟩

theorem pres_pauseE (s : EngineState) : Pres s (pauseE s) :=
  pres_of_fields s _ rfl rfl (fun x => rfl) rfl rfl

theorem pres_unpauseE (s : EngineState) : Pres s (unpauseE s) :=
  pres_of_fields s _ rfl rfl (fun x => rfl) rfl rfl

theorem pres_open_domain (s : EngineState) (d : Domain) :
    Pres s (open_domain s d) := by
  have hfields : (open_domain s d).closing = s.closing ∧
      (open_domain s d).downloaderSites
        = (d, { active := 0, concurrency := s.defaultConcurrency, closingFlag := false })
            :: s.downloaderSites ∧
      (open_domain s d).scraperSites
        = (d, { backout := false, idleFlag := true }) :: s.scraperSites ∧
      (open_domain s d).killed = s.killed ∧
      (open_domain s d).running = s.running := by
    by_cases hd : d ∈ s.nextRequestPending
    · simp only [open_domain]
      rw [next_request_mem s d hd]
      exact ⟨rfl, rfl, rfl, rfl, rfl⟩
    · simp only [open_domain]
      rw [next_request_new s d hd]
      exact ⟨rfl, rfl, rfl, rfl, rfl⟩
  obtain ⟨hc, hdl, hsc, hk, hr⟩ := hfields
  refine ⟨fun h => ⟨?_, ?_⟩, hk, fun h => by rw [← hr]; exact h⟩
  · intro x hx
    rw [hdl, alookup_cons]
    rw [hc] at hx
    by_cases hdx : d = x
    · simp [hdx]
    · simp only [hdx, if_false]
      exact h.1 x hx
  · intro x
    rw [hdl, hsc, alookup_cons, alookup_cons]
    by_cases hdx : d = x
    · simp [hdx]
    · simp only [hdx, if_false]
      exact h.2 x

theorem pres_stop_if_idle (s : EngineState) : Pres s (_stop_if_idle s) := by
  unfold _stop_if_idle
  split
  · exact pres_stopE s
  · exact Pres.refl s

theorem pres_mainloopAux (fuel : Nat) :
    ∀ s : EngineState, Pres s (_mainloopAux () fuel s) := by
  induction fuel with
  | zero => intro s; exact Pres.refl s
  | succ fuel ih =>
    intro s
    unfold _mainloopAux
    split
    · split
      · exact pres_stop_if_idle s
      · refine Pres.trans (Pres.trans ?_ (pres_open_domain _ _)) (ih _)
        exact pres_of_fields s _ rfl rfl (fun x => rfl) rfl rfl
    · exact Pres.refl s

theorem pres_mainloop (s : EngineState) : Pres s (_mainloop s) := by
  unfold _mainloop
  split
  · exact Pres.refl s
  · exact pres_mainloopAux (s.domainQueue.length + 1) s

theorem pres_finish_closing (s : EngineState) (d : Domain) :
    Pres s (_finish_closing_domain s d) := by
  have hstep : Pres s ({ s with
      schedulerOpen := s.schedulerOpen.filter fun x => decide (x ≠ d),
      schedulerQueues := aremove s.schedulerQueues d,
      scraperSites := aremove s.scraperSites d,
      closing := aremove s.closing d,
      downloaderSites := aremove s.downloaderSites d,
      signals := s.signals
        ++ [Signal.domain_closed d ((alookup s.closing d).getD "finished")] } :
        EngineState) := by
    refine ⟨fun h => ⟨?_, ?_⟩, rfl, fun h => h⟩
    · intro x hx
      simp only [] at hx ⊢
      rw [alookup_aremove] at hx ⊢
      by_cases hxd : x = d
      · rw [if_pos hxd] at hx
        exact absurd hx (by simp)
      · rw [if_neg hxd] at hx ⊢
        exact h.1 x hx
    · intro x
      simp only []
      rw [alookup_aremove, alookup_aremove]
      by_cases hxd : x = d
      · simp [hxd]
      · rw [if_neg hxd, if_neg hxd]
        exact h.2 x
  simp only [_finish_closing_domain]
  split
  · exact Pres.trans hstep (pres_mainloop _)
  · split
    · exact Pres.trans hstep (pres_of_fields _ _ rfl rfl (fun x => rfl) rfl rfl)
    · exact hstep

theorem pres_finish_if_idle_state (s : EngineState) (d : Domain) :
    Pres s (match _finish_closing_domain_if_idle s d with
            | FinishOutcome.finalized s1 => s1
            | FinishOutcome.rescheduled s1 _ => s1) := by
  unfold _finish_closing_domain_if_idle
  by_cases hc : (domain_is_idle s d || s.killed) = true
  · rw [if_pos hc]
    exact pres_finish_closing s d
  · rw [if_neg hc]
    exact Pres.refl s

theorem pres_close_match (u : EngineState) (d : Domain) :
    Pres u ((match _finish_closing_domain_if_idle u d with
             | FinishOutcome.finalized s4 => (s4, CloseResult.teardownStarted)
             | FinishOutcome.rescheduled s4 _ => (s4, CloseResult.teardownStarted)).1) := by
  cases hfo : _finish_closing_domain_if_idle u d with
  | finalized s4 =>
    have hms := pres_finish_if_idle_state u d
    rw [hfo] at hms
    exact hms
  | rescheduled s4 delay =>
    have hms := pres_finish_if_idle_state u d
    rw [hfo] at hms
    exact hms

theorem pres_close_domain (s : EngineState) (d : Domain) (r : String) :
    ((alookup s.downloaderSites d).isSome = true ∨ (alookup s.closing d).isSome = true →
      Inv s → Inv (close_domain s d r).1) ∧
    (close_domain s d r).1.killed = s.killed ∧
    ((close_domain s d r).1.running = true → s.running = true) := by
  by_cases hc : (alookup s.closing d).isSome = true
  · rw [close_domain_idempotent s d r hc]
    exact ⟨fun _ h => h, rfl, id⟩
  · have hstepInv : ((alookup s.downloaderSites d).isSome = true ∨
        (alookup s.closing d).isSome = true) → Inv s →
        Inv ({ s with
          closing := (d, r) :: s.closing,
          downloaderSites :=
            (aupdate s.downloaderSites d fun site => { site with closingFlag := true }),
          schedulerQueues := (d, ([] : List Request)) :: aremove s.schedulerQueues d } :
            EngineState) := by
      intro hg h
      constructor
      · intro x hx
        simp only [] at hx ⊢
        rw [alookup_cons] at hx
        rw [isSome_alookup_aupdate]
        by_cases hdx : d = x
        · rcases hg with h1 | h1
          · rw [← hdx]
            exact h1
          · exact absurd h1 hc
        · rw [if_neg hdx] at hx
          exact h.1 x hx
      · intro x
        simp only []
        rw [isSome_alookup_aupdate]
        exact h.2 x
    have htail : Pres ({ s with
          closing := (d, r) :: s.closing,
          downloaderSites :=
            (aupdate s.downloaderSites d fun site => { site with closingFlag := true }),
          schedulerQueues := (d, ([] : List Request)) :: aremove s.schedulerQueues d } :
            EngineState)
        (close_domain s d r).1 := by
      unfold close_domain
      rw [if_neg hc]
      simp only []
      exact pres_close_match _ d
    exact ⟨fun hg h => htail.1 (hstepInv hg h), htail.2.1, htail.2.2⟩

theorem pres_domain_idle (s : EngineState) (d : Domain) (o : IdleOutcome) :
    Pres s (_domain_idle s d o) := by
  cases o with
  | vetoDontClose => exact pres_next_request s d
  | listenerRaised =>
    show Pres s (if domain_is_idle s d = true then (close_domain s d "finished").1 else s)
    by_cases hi : domain_is_idle s d = true
    · rw [if_pos hi]
      have hscr := (domain_is_idle_parts s d hi).1
      have hp := pres_close_domain s d "finished"
      exact ⟨fun h => hp.1 (Or.inl (by rw [← h.2 d]; exact hscr)) h, hp.2.1, hp.2.2⟩
    · rw [if_neg hi]
      exact Pres.refl s
  | proceed =>
    show Pres s (if domain_is_idle s d = true then (close_domain s d "finished").1 else s)
    by_cases hi : domain_is_idle s d = true
    · rw [if_pos hi]
      have hscr := (domain_is_idle_parts s d hi).1
      have hp := pres_close_domain s d "finished"
      exact ⟨fun h => hp.1 (Or.inl (by rw [← h.2 d]; exact hscr)) h, hp.2.1, hp.2.2⟩
    · rw [if_neg hi]
      exact Pres.refl s

theorem next_request_now_state (s : EngineState) (d : Domain) (nr : NRRun)
    (h : next_request_now s d = some nr) :
    (NRRun.state nr).closing = s.closing ∧
    (NRRun.state nr).scraperSites = s.scraperSites ∧
    (∀ x, (alookup (NRRun.state nr).downloaderSites x).isSome
        = (alookup s.downloaderSites x).isSome) ∧
    (NRRun.state nr).killed = s.killed ∧
    (NRRun.state nr).running = s.running := by
  simp only [next_request_now] at h
  by_cases hp : s.paused
  · rw [if_pos (by simpa using hp)] at h
    cases h
    exact ⟨rfl, rfl, fun x => rfl, rfl, rfl⟩
  · rw [if_neg (by simpa using hp)] at h
    cases hdr : drainLoop d
        ((schedQueue { s with nextRequestPending := s.nextRequestPending.erase d } d).length + 1)
        { s with nextRequestPending := s.nextRequestPending.erase d } with
    | none => rw [hdr] at h; cases h
    | some p =>
      obtain ⟨s2, rs⟩ := p
      rw [hdr] at h
      simp only [Option.some.injEq] at h
      subst h
      obtain ⟨f1, f2, f3, f4, f5, f6, f7, f8, f9, f10, f11, f12⟩ :=
        drainLoop_frame d _ _ s2 rs hdr
      exact ⟨f5, f6, fun x => f12 x, f3, f1⟩

theorem pres_nr_tick (s : EngineState) (d : Domain) (o : IdleOutcome) :
    Pres s (nr_tick s d o) := by
  unfold nr_tick
  cases hnr : next_request_now s d with
  | none => exact Pres.refl s
  | some nr =>
    have hpres : Pres s (NRRun.state nr) := by
      obtain ⟨h1, h2, h3, h4, h5⟩ := next_request_now_state s d nr hnr
      refine ⟨fun h => ⟨?_, ?_⟩, h4, fun h => by rw [← h5]; exact h⟩
      · intro x hx
        rw [h3 x]
        exact h.1 x (by rw [← h1]; exact hx)
      · intro x
        rw [h2, h3 x]
        exact h.2 x
    cases nr with
    | retryLater s1 => exact hpres
    | ran s1 flag =>
      cases flag with
      | true => exact Pres.trans hpres (pres_domain_idle s1 d o)
      | false => exact hpres

theorem pres_schedule (s : EngineState) (r : Request) (d : Domain) :
    Pres s (schedule s r d).1 := by
  have key : ∀ t : EngineState, t.closing = s.closing → t.scraperSites = s.scraperSites →
      t.downloaderSites = s.downloaderSites → t.killed = s.killed →
      t.running = s.running →
      Pres s (enqueue_request (next_request t d) d r) := by
    intro t h1 h2 h3 h4 h5
    obtain ⟨f1, f2, f3, f4, f5, f6, f7, f8, f9, f10, f11⟩ := next_request_frame t d
    exact pres_of_fields s _
      (by simp only [enqueue_request]; rw [f5, h1])
      (by simp only [enqueue_request]; rw [f7, h2])
      (fun x => by simp only [enqueue_request]; rw [f6, h3])
      (by simp only [enqueue_request]; rw [f3, h4])
      (by simp only [enqueue_request]; rw [f1, h5])
  unfold schedule
  by_cases hc : (alookup s.closing d).isSome = true
  · rw [if_pos hc]
    exact Pres.refl s
  · rw [if_neg hc]
    simp only []
    split
    · exact key s rfl rfl rfl rfl rfl
    · split
      · exact key _ rfl rfl rfl rfl rfl
      · exact key _ rfl rfl rfl rfl rfl

theorem pres_download_complete (s : EngineState) (d : Domain) :
    Pres s (downloadCompleteE s d) := by
  unfold downloadCompleteE
  simp only []
  have h1 : Pres s ({ s with downloaderSites :=
      (aupdate s.downloaderSites d fun site => { site with active := site.active - 1 }) } :
        EngineState) := by
    refine pres_of_fields s _ rfl rfl ?_ rfl rfl
    intro x
    simp only []
    rw [isSome_alookup_aupdate]
  exact Pres.trans h1 (pres_next_request _ d)

theorem startE_killed (s : EngineState) : (startE s).killed = s.killed := by
  unfold startE
  split
  · rfl
  · have h := (pres_mainloop { s with signals := s.signals ++ [Signal.engine_started] }).2.1
    simpa using h

theorem inv_startE (s : EngineState) (h : Inv s) : Inv (startE s) := by
  unfold startE
  split
  · exact h
  · have hp := pres_mainloop { s with signals := s.signals ++ [Signal.engine_started] }
    have h1 : Inv (_mainloop { s with signals := s.signals ++ [Signal.engine_started] }) :=
      hp.1 ⟨fun x hx => h.1 x hx, fun x => h.2 x⟩
    exact ⟨fun x hx => h1.1 x hx, fun x => h1.2 x⟩

theorem killE_running (s : EngineState) : (killE s).running = s.running := by
  unfold killE
  split <;> rfl

theorem inv_killE (s : EngineState) (h : Inv s) : Inv (killE s) := by
  unfold killE
  split
  · exact h
  · exact ⟨fun x hx => h.1 x hx, fun x => h.2 x⟩

theorem inv_applyE (e : Event) (s : EngineState) (hen : enabled e s = true)
    (h : Inv s) : Inv (applyE e s) := by
  cases e with
  | start => exact inv_startE s h
  | stop => exact (pres_stopE s).1 h
  | kill => exact inv_killE s h
  | pause => exact (pres_pauseE s).1 h
  | unpause => exact (pres_unpauseE s).1 h
  | tick => exact (pres_mainloop s).1 h
  | openDom d => exact (pres_open_domain s d).1 h
  | closeDom d r =>
    have hg : ((alookup s.downloaderSites d).isSome
        || (alookup s.closing d).isSome) = true := hen
    have hg2 : (alookup s.downloaderSites d).isSome = true ∨
        (alookup s.closing d).isSome = true := by simpa using hg
    exact (pres_close_domain s d r).1 hg2 h
  | finishCb d => exact (pres_finish_if_idle_state s d).1 h
  | scheduleReq d r => exact (pres_schedule s r d).1 h
  | runNextRequest d o =>
    have h0 : Pres s ({ s with
        scheduledNextRequest := s.scheduledNextRequest.erase d } : EngineState) :=
      pres_of_fields s _ rfl rfl (fun x => rfl) rfl rfl
    exact (Pres.trans h0 (pres_nr_tick _ d o)).1 h
  | downloadDone d => exact (pres_download_complete s d).1 h

theorem inv_reachable (s : EngineState) (h : Reachable s) : Inv s := by
  induction h with
  | init =>
    constructor
    · intro d hd
      simp [initialState, alookup] at hd
    · intro d
      rfl
  | step e hrel hen ih => exact inv_applyE e _ hen ih

/-! ### C7: open / closed / closing trichotomy -/

/-- C7: in every reachable engine state, for every domain, exactly one of
`domain_is_open`, `domain_is_closed`, and membership in the closing map
holds: the three states are jointly exhaustive and mutually exclusive. -/
theorem domain_states_trichotomy (s : EngineState) (h : Reachable s) (d : Domain) :
    (domain_is_open s d = true ∨ domain_is_closed s d = true ∨ isClosing s d = true) ∧
    ¬(domain_is_open s d = true ∧ domain_is_closed s d = true) ∧
    ¬(domain_is_open s d = true ∧ isClosing s d = true) ∧
    ¬(domain_is_closed s d = true ∧ isClosing s d = true) := by
  have hinv := inv_reachable s h
  unfold domain_is_open domain_is_closed isClosing
  cases hdl : (alookup s.downloaderSites d).isSome with
  | true =>
    cases hcl : (alookup s.closing d).isSome with
    | true => simp [hdl, hcl]
    | false => simp [hdl, hcl]
  | false =>
    cases hcl : (alookup s.closing d).isSome with
    | false => simp [hdl, hcl]
    | true =>
      have hcontra := hinv.1 d hcl
      rw [hdl] at hcontra
      exact absurd hcontra (by simp)

theorem domain_states_trichotomy_witness :
    (domain_is_open initialState "a" = true ∨ domain_is_closed initialState "a" = true ∨
      isClosing initialState "a" = true) ∧
    ¬(domain_is_open initialState "a" = true ∧ domain_is_closed initialState "a" = true) ∧
    ¬(domain_is_open initialState "a" = true ∧ isClosing initialState "a" = true) ∧
    ¬(domain_is_closed initialState "a" = true ∧ isClosing initialState "a" = true) :=
  domain_states_trichotomy initialState Reachable.init "a"

/-! ### C8: the killed latch versus running -/

theorem killed_applyE (e : Event) (s : EngineState) (hne : e ≠ Event.kill) :
    (applyE e s).killed = s.killed := by
  cases e with
  | start => exact startE_killed s
  | stop => exact (pres_stopE s).2.1
  | kill => exact absurd rfl hne
  | pause => exact (pres_pauseE s).2.1
  | unpause => exact (pres_unpauseE s).2.1
  | tick => exact (pres_mainloop s).2.1
  | openDom d => exact (pres_open_domain s d).2.1
  | closeDom d r => exact (pres_close_domain s d r).2.1
  | finishCb d => exact (pres_finish_if_idle_state s d).2.1
  | scheduleReq d r => exact (pres_schedule s r d).2.1
  | runNextRequest d o =>
    have h0 : Pres s ({ s with
        scheduledNextRequest := s.scheduledNextRequest.erase d } : EngineState) :=
      pres_of_fields s _ rfl rfl (fun x => rfl) rfl rfl
    exact (Pres.trans h0 (pres_nr_tick _ d o)).2.1
  | downloadDone d => exact (pres_download_complete s d).2.1

theorem running_applyE (e : Event) (s : EngineState) (hne : e ≠ Event.start) :
    (applyE e s).running = true → s.running = true := by
  cases e with
  | start => exact absurd rfl hne
  | stop => exact (pres_stopE s).2.2
  | kill =>
    intro h
    have h2 : (killE s).running = true := h
    rw [killE_running] at h2
    exact h2
  | pause => exact (pres_pauseE s).2.2
  | unpause => exact (pres_unpauseE s).2.2
  | tick => exact (pres_mainloop s).2.2
  | openDom d => exact (pres_open_domain s d).2.2
  | closeDom d r => exact (pres_close_domain s d r).2.2
  | finishCb d => exact (pres_finish_if_idle_state s d).2.2
  | scheduleReq d r => exact (pres_schedule s r d).2.2
  | runNextRequest d o =>
    have h0 : Pres s ({ s with
        scheduledNextRequest := s.scheduledNextRequest.erase d } : EngineState) :=
      pres_of_fields s _ rfl rfl (fun x => rfl) rfl rfl
    exact (Pres.trans h0 (pres_nr_tick _ d o)).2.2
  | downloadDone d => exact (pres_download_complete s d).2.2

/-- The engine after `start(); stop(); kill(); start()`: the restart makes
`running` true again while the `killed` latch is still set. -/
def killedRunningState : EngineState :=
  applyE Event.start (applyE Event.kill (applyE Event.stop (applyE Event.start initialState)))

/-- C8 counterexample: a reachable state (via the in-contract event sequence
start, stop, kill, start) in which `killed = true` and `running = true`
simultaneously — so `killed = true` does not imply `running = false` in
every reachable state. -/
theorem killed_running_reachable_cex :
    Reachable killedRunningState ∧
    killedRunningState.killed = true ∧ killedRunningState.running = true := by
  refine ⟨?_, by decide, by decide⟩
  exact Reachable.step Event.start
    (Reachable.step Event.kill
      (Reachable.step Event.stop
        (Reachable.step Event.start Reachable.init rfl) rfl) rfl) rfl

/-- C8 amended: `kill()` invoked while running is a no-op, so the killed
flag may only become true when the engine is not running; moreover every
event other than `start` preserves the invariant `killed = true →
running = false`.  (A later `start()` re-sets `running`, so the invariant
holds of all reachable states with no start after the kill, but not of all
reachable states.) -/
theorem killed_only_when_stopped_amended :
    (∀ s : EngineState, s.running = true → killE s = s) ∧
    (∀ (e : Event) (s : EngineState), e ≠ Event.start →
      (s.killed = true → s.running = false) →
      (applyE e s).killed = true → (applyE e s).running = false) := by
  constructor
  · intro s hr
    unfold killE
    rw [if_pos hr]
  · intro e s hne hinv hk
    by_cases hek : e = Event.kill
    · subst hek
      show (killE s).running = false
      rw [killE_running]
      have hk2 : (killE s).killed = true := hk
      by_cases hr : s.running = true
      · rw [show killE s = s from by unfold killE; rw [if_pos hr]] at hk2
        rw [hinv hk2] at hr
        exact absurd hr (by simp)
      · simpa using hr
    · have hkeq := killed_applyE e s hek
      rw [hkeq] at hk
      have hrun := hinv hk
      cases hcr : (applyE e s).running with
      | false => rfl
      | true =>
        have := running_applyE e s hne hcr
        rw [hrun] at this
        exact absurd this (by simp)

/-- An engine that was stopped and killed in contract. -/
def stoppedKilledState : EngineState := { initialState with killed := true }

theorem killed_only_when_stopped_amended_witness :
    killE { initialState with running := true } = { initialState with running := true } ∧
    (applyE Event.tick stoppedKilledState).running = false := by
  constructor
  · exact killed_only_when_stopped_amended.1 { initialState with running := true } rfl
  · exact killed_only_when_stopped_amended.2 Event.tick stoppedKilledState
      (by decide) (fun _ => rfl) (by decide)

end ScrapyEngine
